import Mathlib

/-!
Shallow embedding of the order-event processing pipeline
(OrderService / RedisService / KafkaService) of the Order-Processing
backend.  Pure TypeScript arithmetic on JS numbers is modelled over ℚ
(amounts) and ℕ/ℤ (epoch milliseconds); the Redis key space is modelled
as association lists, one per key prefix (the prefixes `order:`,
`recent-orders`, `rate:`, `lock:` are injective, so separate maps are
faithful).  TTLs are carried as absolute expiry times in milliseconds;
an entry is visible only while `now < expiry`.
-/

namespace OrderProcessing

/-- Association-list lookup (models a Redis GET on a keyed map). -/
def getAssoc {α : Type} (k : String) : List (String × α) → Option α
  | [] => none
  | (k', v) :: rest => if k' = k then some v else getAssoc k rest

/-- Association-list upsert (models a Redis SET on a keyed map). -/
def setAssoc {α : Type} (k : String) (v : α) : List (String × α) → List (String × α)
  | [] => [(k, v)]
  | (k', v') :: rest => if k' = k then (k, v) :: rest else (k', v') :: setAssoc k v rest

/-- Association-list delete (models a Redis DEL): every binding of the
key disappears. -/
def delAssoc {α : Type} (k : String) (l : List (String × α)) : List (String × α) :=
  l.filter (fun kv => kv.1 != k)

/-- JS `Math.round` — `⌊x + 1/2⌋` (half rounds toward +∞), written over
the executable `Rat.floor`. -/
def jsRound (x : ℚ) : ℤ := (x + 1 / 2).floor

/-- `Math.round(x * 100) / 100` — round to 2 decimal places. -/
def round2 (x : ℚ) : ℚ := (jsRound (x * 100) : ℚ) / 100

/-- Redis `LRANGE key start stop` semantics, negative indices counting
from the tail (from `lrangeCommand` in Redis: negative indices are
shifted by the length, a still-negative start is clamped to 0, an
out-of-range or inverted range is empty, the stop index is clamped to
the last element). -/
def lrange {α : Type} (l : List α) (start stop : Int) : List α :=
  let llen : Int := (l.length : Int)
  let s1 : Int := if start < 0 then llen + start else start
  let e1 : Int := if stop < 0 then llen + stop else stop
  let s2 : Int := if s1 < 0 then 0 else s1
  if s2 > e1 ∨ s2 ≥ llen then []
  else
    let e2 : Int := if e1 ≥ llen then llen - 1 else e1
    (l.drop s2.toNat).take (e2 - s2 + 1).toNat

/-- `status: 'pending' | 'processing' | 'completed' | 'failed'` from
`src/types/index.ts`. -/
inductive OrderStatus : Type
  | pending
  | processing
  | completed
  | failed
deriving Repr, DecidableEq

/-- `OrderItem` from `src/types/index.ts`. -/
structure OrderItem : Type where
  name : String
  quantity : Int
  price : ℚ
deriving Repr, DecidableEq

/-- `Order` from `src/types/index.ts`; `timestamp` is epoch
milliseconds, the optional JS fields are `Option`s. -/
structure Order : Type where
  id : String
  customerId : String
  items : List OrderItem
  status : OrderStatus
  totalAmount : ℚ
  timestamp : Nat
  processingTime : Option Nat := none
  retryCount : Option Nat := none
deriving Repr, DecidableEq

/-- `OrderEvent` from `src/types/index.ts` (the `type` field ranges over
the string literals `ORDER_CREATED`, `ORDER_UPDATED`, ...). -/
structure OrderEvent : Type where
  id : String
  type : String
  order : Order
  timestamp : Nat
  source : String
deriving Repr, DecidableEq

/-- `Metrics` from `src/types/index.ts`. -/
structure Metrics : Type where
  totalOrders : Nat
  completedOrders : Nat
  failedOrders : Nat
  pendingOrders : Nat
  averageProcessingTime : ℚ
  throughputPerMinute : ℚ
deriving Repr, DecidableEq

/-- The `order` part of `WebhookPayload` (the optional `status` /
`totalAmount` fields of the payload are ignored by `processWebhook`,
which always builds its own). -/
structure WebhookPayload : Type where
  customerId : String
  items : List OrderItem
deriving Repr, DecidableEq

/-- An `order:<id>` cache entry: the cached order plus its absolute
expiry time (`SETEX key 3600 ...` ⇒ expiry = now + 3600000 ms).  The
`cachedAt` metadata added by `cacheOrder` is stripped again by
`getOrder`, so it is not modelled. -/
structure CacheEntry : Type where
  order : Order
  expiry : Nat
deriving Repr, DecidableEq

/-- The Redis-backed state visible to OrderService/RedisService:
the `order:<id>` cache, the `recent-orders` list, the published
`orders`-topic events (most recent first), the `system-metrics` cache
and the `metrics-updates` publications. -/
structure Store : Type where
  cache : List (String × CacheEntry) := []
  recent : List Order := []
  events : List OrderEvent := []
  metricsCache : Option (Metrics × Nat) := none
  metricsPublished : List Metrics := []
deriving Repr, DecidableEq

/-- `RedisService.cacheOrder` — upsert under `order:<id>` with 3600 s TTL. -/
def cacheOrder (now : Nat) (o : Order) (s : Store) : Store :=
  { s with cache := setAssoc o.id ⟨o, now + 3600 * 1000⟩ s.cache }

/-- `RedisService.getOrder` — `null` when absent or expired. -/
def getOrder (now : Nat) (orderId : String) (s : Store) : Option Order :=
  match getAssoc orderId s.cache with
  | some e => if now < e.expiry then some e.order else none
  | none => none

/-- `RedisService.addToRecentOrders` — `LPUSH` then `LTRIM 0 99`:
push-front, keep the first 100. -/
def addToRecentOrders (o : Order) (s : Store) : Store :=
  { s with recent := (o :: s.recent).take 100 }

/-- `RedisService.getRecentOrders(limit)` —
`LRANGE recent-orders 0 (min limit 100 - 1)`. -/
def getRecentOrders (limit : Int) (s : Store) : List Order :=
  lrange s.recent 0 (min limit 100 - 1)

/-- `KafkaService.publishOrderEvent` — prepend to the published-events
log (most recent first). -/
def publishOrderEvent (ev : OrderEvent) (s : Store) : Store :=
  { s with events := ev :: s.events }

/-- `OrderService.calculateTotalAmount` — Σ price·quantity via `reduce`
from 0, rounded to 2 decimal places. -/
def calculateTotalAmount (items : List OrderItem) : ℚ :=
  round2 (items.foldl (fun sum it => sum + it.price * (it.quantity : ℚ)) 0)

/-- `OrderService.validateOrder` — the four checks in source order; JS
falsiness of the empty string models `!order.customerId` and
`!item.name`. -/
def validateOrder (o : Order) : Except String Unit :=
  if o.customerId = "" then .error "Customer ID is required"
  else if o.items.isEmpty then .error "Order must contain at least one item"
  else if o.items.any (fun it => it.name == "" || decide (it.quantity ≤ 0) || decide (it.price < 0)) then
    .error "Invalid item"
  else if o.totalAmount ≤ 0 then .error "Total amount must be greater than zero"
  else .ok ()

/-- The order object built at the top of `OrderService.processWebhook`:
status `pending`, `retryCount: 0`, computed `totalAmount`. -/
def mkOrder (now : Nat) (orderId : String) (p : WebhookPayload) : Order :=
  { id := orderId
    customerId := p.customerId
    items := p.items
    status := .pending
    totalAmount := calculateTotalAmount p.items
    timestamp := now
    processingTime := none
    retryCount := some 0 }

/-- `OrderService.calculateMetrics` over the cached recent orders.  A JS
`o.processingTime` in boolean position is truthy iff present and
nonzero, hence the `getD 0 != 0` test; `Math.round` on the average and
the 2-decimal rounding on the throughput are the source's. -/
def calculateMetrics (now : Nat) (recentOrders : List Order) : Metrics :=
  let completedOrdersWithTime :=
    recentOrders.filter (fun o => o.status == .completed && o.processingTime.getD 0 != 0)
  let averageProcessingTime : ℚ :=
    if completedOrdersWithTime.length > 0 then
      (completedOrdersWithTime.foldl (fun sum o => sum + (o.processingTime.getD 0 : ℚ)) 0)
        / completedOrdersWithTime.length
    else 0
  let oneHourAgo : Int := (now : Int) - 60 * 60 * 1000
  let recentlyProcessed := recentOrders.filter
    (fun o => decide ((o.timestamp : Int) > oneHourAgo)
      && (o.status == .completed || o.status == .failed))
  { totalOrders := recentOrders.length
    completedOrders := (recentOrders.filter (fun o => o.status == .completed)).length
    failedOrders := (recentOrders.filter (fun o => o.status == .failed)).length
    pendingOrders :=
      (recentOrders.filter (fun o => o.status == .pending || o.status == .processing)).length
    averageProcessingTime := (jsRound averageProcessingTime : ℚ)
    throughputPerMinute := round2 ((recentlyProcessed.length : ℚ) / 60) }

/-- `OrderService.updateMetrics` — recompute from the last 100 recent
orders, cache under `system-metrics` for 60 s and publish on
`metrics-updates`. -/
def updateMetrics (now : Nat) (s : Store) : Store :=
  let m := calculateMetrics now (getRecentOrders 100 s)
  { s with metricsCache := some (m, now + 60 * 1000), metricsPublished := m :: s.metricsPublished }

/-- `OrderService.processWebhook` — build the order, validate, cache it,
append to recent orders, publish `ORDER_CREATED`, refresh metrics and
return the order id.  A validation failure is thrown before any write,
so the store comes back unchanged next to the error.  The generated id
`ORD-<now>-<rand>`, the event uuid and the metadata source string are
parameters; the constant `message` of the returned object is elided. -/
def processWebhook (now : Nat) (orderId eventId src : String)
    (p : WebhookPayload) (s : Store) : Except String String × Store :=
  let order := mkOrder now orderId p
  match validateOrder order with
  | .error e => (.error e, s)
  | .ok _ =>
    let orderEvent : OrderEvent :=
      { id := eventId, type := "ORDER_CREATED", order := order, timestamp := now, source := src }
    let s1 := cacheOrder now order s
    let s2 := addToRecentOrders order s1
    let s3 := publishOrderEvent orderEvent s2
    let s4 := updateMetrics now s3
    (.ok orderId, s4)

/-- `RedisService.updateOrderStatus` — throws NotFound when the order is
absent or expired, otherwise merges `status` and — only when truthy,
i.e. present and nonzero (`...(processingTime && { processingTime })`) —
`processingTime`, re-caching with a fresh 3600 s TTL. -/
def updateOrderStatus (now : Nat) (orderId : String) (status : OrderStatus)
    (processingTime : Option Nat) (s : Store) : Except String Unit × Store :=
  match getOrder now orderId s with
  | none => (.error ("Order " ++ orderId ++ " not found in cache"), s)
  | some existingOrder =>
    let updatedOrder : Order :=
      { existingOrder with
        status := status
        processingTime :=
          if processingTime.getD 0 ≠ 0 then processingTime else existingOrder.processingTime }
    (.ok (), cacheOrder now updatedOrder s)

/-- `OrderService.retryFailedOrder` — `false` without side effects when
the order is absent, not `failed`, or its incremented retry count would
pass 3; otherwise re-cache it as `pending` with `retryCount + 1` and
republish it as an `ORDER_CREATED` event (source `retry-mechanism`). -/
def retryFailedOrder (now : Nat) (eventId orderId : String) (s : Store) : Bool × Store :=
  match getOrder now orderId s with
  | none => (false, s)
  | some order =>
    if order.status ≠ .failed then (false, s)
    else
      let retryCount := order.retryCount.getD 0 + 1
      if retryCount > 3 then (false, s)
      else
        let retryOrder : Order := { order with status := .pending, retryCount := some retryCount }
        let retryEvent : OrderEvent :=
          { id := eventId, type := "ORDER_CREATED", order := retryOrder
            timestamp := now, source := "retry-mechanism" }
        let s1 := cacheOrder now retryOrder s
        let s2 := publishOrderEvent retryEvent s1
        (true, s2)

/-- A `rate:`-keyed counter entry: `INCR` on a fresh key creates the
counter without a TTL; `EXPIRE` then attaches an absolute expiry. -/
structure RateEntry : Type where
  count : Nat
  expiry : Option Nat
deriving Repr, DecidableEq

abbrev RateStore := List (String × RateEntry)

/-- Visibility of a counter at time `now` — an expired key is gone. -/
def rateGet (now : Nat) (k : String) (st : RateStore) : Option RateEntry :=
  match getAssoc k st with
  | some e =>
    match e.expiry with
    | some ex => if now < ex then some e else none
    | none => some e
  | none => none

/-- Redis `INCR` — create at 1 on a missing or expired key. -/
def redisIncr (now : Nat) (k : String) (st : RateStore) : Nat × RateStore :=
  match rateGet now k st with
  | some e => (e.count + 1, setAssoc k ⟨e.count + 1, e.expiry⟩ st)
  | none => (1, setAssoc k ⟨1, none⟩ st)

/-- Redis `EXPIRE key seconds` — set the TTL of a live key. -/
def redisExpire (now : Nat) (k : String) (seconds : Nat) (st : RateStore) : RateStore :=
  match rateGet now k st with
  | some e => setAssoc k ⟨e.count, some (now + seconds * 1000)⟩ st
  | none => st

/-- `RedisService.checkRateLimit` — `INCR`, window TTL set on the first
hit, allow iff `current ≤ limit`; with the transport down
(`connected = false`, the `catch` path) the request is allowed. -/
def checkRateLimit (now : Nat) (k : String) (limit windowSeconds : Nat)
    (connected : Bool) (st : RateStore) : Bool × RateStore :=
  if !connected then (true, st)
  else
    let r := redisIncr now k st
    let st2 := if r.1 = 1 then redisExpire now k windowSeconds r.2 else r.2
    (decide (r.1 ≤ limit), st2)

/-- Sequential `checkRateLimit` calls at the given times, transport up. -/
def rateCalls (k : String) (limit windowSeconds : Nat) :
    List Nat → RateStore → List Bool × RateStore
  | [], st => ([], st)
  | t :: ts, st =>
    let r := checkRateLimit t k limit windowSeconds true st
    let rest := rateCalls k limit windowSeconds ts r.2
    (r.1 :: rest.1, rest.2)

/-- A `lock:<key>` entry: the holder's unique token value and the
absolute expiry set by `EX ttl`. -/
structure LockEntry : Type where
  token : String
  expiry : Nat
deriving Repr, DecidableEq

abbrev LockStore := List (String × LockEntry)

/-- Visibility of a lock entry at time `now` — expired means absent. -/
def lockGet (now : Nat) (k : String) (st : LockStore) : Option LockEntry :=
  match getAssoc k st with
  | some e => if now < e.expiry then some e else none
  | none => none

/-- `RedisService.acquireLock` — `SET lock:<key> token EX ttl NX`: store
the token with a TTL only if no live entry exists, else return null.
The generated token `lock:<now>:<rand>` is a parameter. -/
def acquireLock (now : Nat) (token k : String) (ttlSeconds : Nat) (st : LockStore) :
    Option String × LockStore :=
  match lockGet now k st with
  | some _ => (none, st)
  | none => (some token, setAssoc k ⟨token, now + ttlSeconds * 1000⟩ st)

/-- `RedisService.releaseLock` — the compare-and-delete Lua script:
`GET`, compare with the caller's token, `DEL` only on a match. -/
def releaseLock (now : Nat) (k token : String) (st : LockStore) : Bool × LockStore :=
  match lockGet now k st with
  | some e => if e.token = token then (true, delAssoc k st) else (false, st)
  | none => (false, st)

/-- A consumed Kafka message, as far as `handleMessage` inspects it:
the raw value (absent models `!message.value`) and the `event-type`
header. -/
structure KafkaMsg : Type where
  value : Option String
  headerEventType : Option String
deriving Repr, DecidableEq

/-- What `publishToDeadLetter` receives as `originalMessage`: the parsed
event, or the raw value when `JSON.parse` already failed. -/
inductive RawOrParsed : Type
  | raw (s : String)
  | parsed (ev : OrderEvent)
deriving Repr, DecidableEq

/-- The record `KafkaService.publishToDeadLetter` publishes:
`{originalMessage, error, failedAt, retryCount: originalMessage.retryCount || 0}`.
Neither a parsed `OrderEvent` nor a raw value carries a top-level
`retryCount` field, so the `|| 0` default always applies. -/
structure DeadLetterRecord : Type where
  originalMessage : RawOrParsed
  errorMessage : String
  failedAt : Nat
  retryCount : Nat
deriving Repr, DecidableEq

def publishToDeadLetter (orig : RawOrParsed) (errMsg : String) (now : Nat) : DeadLetterRecord :=
  { originalMessage := orig, errorMessage := errMsg, failedAt := now, retryCount := 0 }

/-- Observable outcome of one `KafkaService.handleMessage` call: the
event types whose handler ran, what was published to the dead-letter
topic, and whether the message was logged and dropped (no value, or no
registered handler).  The function always returns normally — the
`catch` turns a handler exception into a dead-letter publish. -/
structure HandleResult : Type where
  invoked : List String
  deadLetter : Option DeadLetterRecord
  dropped : Bool
deriving Repr, DecidableEq

/-- `message.headers?.['event-type']?.toString() || orderEvent.type` —
an absent or empty header string falls back to the event's own type. -/
def effectiveEventType (m : KafkaMsg) (ev : OrderEvent) : String :=
  match m.headerEventType with
  | some h => if h = "" then ev.type else h
  | none => ev.type

/-- `KafkaService.handleMessage` — drop a valueless message; an
unparseable value goes to the dead letter topic via the `catch`; else
look up the single handler registered for the effective event type,
run it, and on a handler exception publish the dead-letter record and
continue (no rethrow).  `parse` stands for `JSON.parse` (`none` models
a throw), `handlers` is the `messageHandlers` map. -/
def handleMessage (parse : String → Option OrderEvent)
    (handlers : List (String × (OrderEvent → Except String Unit)))
    (now : Nat) (m : KafkaMsg) : HandleResult :=
  match m.value with
  | none => { invoked := [], deadLetter := none, dropped := true }
  | some rawValue =>
    match parse rawValue with
    | none =>
      { invoked := []
        deadLetter := some (publishToDeadLetter (.raw rawValue) "JSON parse error" now)
        dropped := false }
    | some ev =>
      let eventType := effectiveEventType m ev
      match getAssoc eventType handlers with
      | some handler =>
        match handler ev with
        | .ok _ => { invoked := [eventType], deadLetter := none, dropped := false }
        | .error e =>
          { invoked := [eventType]
            deadLetter := some (publishToDeadLetter (.parsed ev) e now)
            dropped := false }
      | none => { invoked := [], deadLetter := none, dropped := true }

/-! ## Concrete sample data for witnesses and counterexamples -/

def sampleItem : OrderItem := ⟨"X", 1, 10⟩

def sampleOrder (nm : String) (st : OrderStatus) (ts : Nat) (pt : Option Nat) : Order :=
  { id := nm, customerId := "c", items := [sampleItem], status := st
    totalAmount := 10, timestamp := ts, processingTime := pt, retryCount := some 0 }

def failedOrder3 : Order := { sampleOrder "A" .failed 0 none with retryCount := some 3 }

def failedStore3 : Store := { cache := [("A", ⟨failedOrder3, 3600000⟩)] }

def failedOrder2 : Order := { sampleOrder "B" .failed 0 none with retryCount := some 2 }

def failedStore2 : Store := { cache := [("B", ⟨failedOrder2, 3600000⟩)] }

def ptOrder5 : Order := sampleOrder "P" .completed 0 (some 5)

def ptStore5 : Store := { cache := [("P", ⟨ptOrder5, 3600000⟩)] }

def scenario12 : List Order :=
  (List.range 10).map (fun i => sampleOrder (toString i) .completed 7200000 (some 1000))
    ++ [sampleOrder "f1" .failed 7200000 none, sampleOrder "f2" .failed 7200000 none]

def manyOrders : List Order :=
  (List.range 101).map (fun i => sampleOrder (toString i) .pending 0 none)

def twoOrderStore : Store :=
  { recent := [sampleOrder "A" .pending 0 none, sampleOrder "B" .pending 0 none] }

def sampleEvent : OrderEvent :=
  { id := "E", type := "ORDER_CREATED", order := sampleOrder "A" .pending 0 none
    timestamp := 0, source := "t" }

def lockStoreK : LockStore := [("K", ⟨"T1", 30000⟩)]

/-! ## Helper lemmas -/

theorem jsRound_eq_round (x : ℚ) : jsRound x = round x := by
  unfold jsRound
  rw [round_eq, Rat.floor_def', Rat.floor_def]

theorem getAssoc_setAssoc {α : Type} (k k' : String) (v : α) (l : List (String × α)) :
    getAssoc k (setAssoc k' v l) = if k' = k then some v else getAssoc k l := by
  induction l with
  | nil => simp [getAssoc, setAssoc]
  | cons hd tl ih =>
    obtain ⟨k2, v2⟩ := hd
    simp only [setAssoc]
    by_cases h2 : k2 = k'
    · subst h2
      by_cases h1 : k2 = k <;> simp [getAssoc, h1]
    · by_cases h1 : k2 = k
      · subst h1
        have hk : ¬k' = k2 := fun hh => h2 hh.symm
        simp [getAssoc, h2, hk]
      · simp [getAssoc, h1, h2, ih]

theorem getAssoc_delAssoc_self {α : Type} (k : String) (l : List (String × α)) :
    getAssoc k (delAssoc k l) = none := by
  induction l with
  | nil => rfl
  | cons hd tl ih =>
    obtain ⟨k2, v2⟩ := hd
    by_cases h : k2 = k
    · simpa [delAssoc, List.filter_cons, h] using ih
    · simpa [delAssoc, List.filter_cons, h, getAssoc] using ih

theorem foldl_amount (items : List OrderItem) (a : ℚ) :
    items.foldl (fun sum it => sum + it.price * (it.quantity : ℚ)) a
      = a + (items.map (fun it => it.price * (it.quantity : ℚ))).sum := by
  induction items generalizing a with
  | nil => simp
  | cons x xs ih => simp [List.foldl_cons, ih, add_assoc]

theorem foldl_ptime (l : List Order) (a : ℚ) :
    l.foldl (fun sum o => sum + (o.processingTime.getD 0 : ℚ)) a
      = a + (l.map (fun o => (o.processingTime.getD 0 : ℚ))).sum := by
  induction l generalizing a with
  | nil => simp
  | cons x xs ih => simp [List.foldl_cons, ih, add_assoc]

theorem calculateTotalAmount_eq_sum (items : List OrderItem) :
    calculateTotalAmount items
      = round2 ((items.map (fun it => it.price * (it.quantity : ℚ))).sum) := by
  unfold calculateTotalAmount
  rw [foldl_amount]
  simp

theorem getOrder_publishOrderEvent (t : Nat) (i : String) (ev : OrderEvent) (s : Store) :
    getOrder t i (publishOrderEvent ev s) = getOrder t i s := rfl

theorem getOrder_addToRecentOrders (t : Nat) (i : String) (o : Order) (s : Store) :
    getOrder t i (addToRecentOrders o s) = getOrder t i s := rfl

theorem getOrder_updateMetrics (t t' : Nat) (i : String) (s : Store) :
    getOrder t i (updateMetrics t' s) = getOrder t i s := rfl

theorem getOrder_cacheOrder (t now : Nat) (o : Order) (i : String) (s : Store) :
    getOrder t i (cacheOrder now o s)
      = if o.id = i then (if t < now + 3600 * 1000 then some o else none)
        else getOrder t i s := by
  unfold getOrder cacheOrder
  simp only [getAssoc_setAssoc]
  by_cases h : o.id = i <;> simp [h]

theorem validateOrder_error_iff (o : Order) :
    (∃ e, validateOrder o = .error e) ↔
      (o.customerId = "" ∨ o.items = [] ∨
        (∃ it ∈ o.items, it.name = "" ∨ it.quantity ≤ 0 ∨ it.price < 0) ∨
        o.totalAmount ≤ 0) := by
  unfold validateOrder
  split_ifs with h1 h2 h3 h4 <;>
    simp_all [List.isEmpty_iff, List.any_eq_true, or_assoc]

theorem processWebhook_error_eq
    (now : Nat) (orderId eventId src : String) (p : WebhookPayload) (s : Store)
    (e : String) (hv : validateOrder (mkOrder now orderId p) = .error e) :
    processWebhook now orderId eventId src p s = (.error e, s) := by
  unfold processWebhook
  simp only [hv]

theorem processWebhook_ok_eq
    (now : Nat) (orderId eventId src : String) (p : WebhookPayload) (s : Store)
    (u : Unit) (hv : validateOrder (mkOrder now orderId p) = .ok u) :
    processWebhook now orderId eventId src p s =
      (.ok orderId,
        updateMetrics now (publishOrderEvent
          { id := eventId, type := "ORDER_CREATED", order := mkOrder now orderId p
            timestamp := now, source := src }
          (addToRecentOrders (mkOrder now orderId p)
            (cacheOrder now (mkOrder now orderId p) s)))) := by
  unfold processWebhook
  simp only [hv]

/-! ## Claim theorems -/

/-- C1: whenever `processWebhook` succeeds, the returned id is the
generated order id and the order cached under it has status `pending`,
`retryCount` 0, and `totalAmount` equal to Σ price·quantity over the
payload's items rounded to 2 decimal places.  The witness instantiates
the scenario `{customerId:"C1", items:[{name:"X",quantity:2,price:10}]}`
and checks `totalAmount = 20`. -/
theorem processWebhook_caches_pending_order
    (now : Nat) (orderId eventId src : String) (p : WebhookPayload) (s : Store)
    (res : String) (h : (processWebhook now orderId eventId src p s).1 = .ok res) :
    res = orderId ∧
    (getOrder now orderId (processWebhook now orderId eventId src p s).2).map (·.status)
      = some .pending ∧
    (getOrder now orderId (processWebhook now orderId eventId src p s).2).map (·.retryCount)
      = some (some 0) ∧
    (getOrder now orderId (processWebhook now orderId eventId src p s).2).map (·.totalAmount)
      = some (round2 ((p.items.map (fun it => it.price * (it.quantity : ℚ))).sum)) := by
  cases hv : validateOrder (mkOrder now orderId p) with
  | error e =>
    rw [processWebhook_error_eq now orderId eventId src p s e hv] at h
    simp at h
  | ok u =>
    rw [processWebhook_ok_eq now orderId eventId src p s u hv] at h ⊢
    refine ⟨(Except.ok.inj h).symm, ?_, ?_, ?_⟩ <;>
    · rw [show ((Except.ok orderId, updateMetrics now (publishOrderEvent _
          (addToRecentOrders (mkOrder now orderId p)
            (cacheOrder now (mkOrder now orderId p) s)))) :
          Except String String × Store).2 = updateMetrics now (publishOrderEvent _
          (addToRecentOrders (mkOrder now orderId p)
            (cacheOrder now (mkOrder now orderId p) s))) from rfl,
        getOrder_updateMetrics, getOrder_publishOrderEvent, getOrder_addToRecentOrders,
        getOrder_cacheOrder]
      simp [mkOrder, calculateTotalAmount_eq_sum]

/-- Witness for C1 at the spec's scenario: the webhook
`{customerId:"C1", items:[{name:"X",quantity:2,price:10}]}` is accepted,
the order is cached as `pending` with `retryCount` 0 and
`totalAmount = 20`. -/
theorem processWebhook_caches_pending_order_witness :
    (processWebhook 0 "ORD-1" "EV-1" "webhook" ⟨"C1", [⟨"X", 2, 10⟩]⟩ {}).1 = .ok "ORD-1" ∧
    (getOrder 0 "ORD-1" (processWebhook 0 "ORD-1" "EV-1" "webhook"
        ⟨"C1", [⟨"X", 2, 10⟩]⟩ {}).2).map (·.status) = some .pending ∧
    (getOrder 0 "ORD-1" (processWebhook 0 "ORD-1" "EV-1" "webhook"
        ⟨"C1", [⟨"X", 2, 10⟩]⟩ {}).2).map (·.retryCount) = some (some 0) ∧
    (getOrder 0 "ORD-1" (processWebhook 0 "ORD-1" "EV-1" "webhook"
        ⟨"C1", [⟨"X", 2, 10⟩]⟩ {}).2).map (·.totalAmount) = some 20 := by
  have h := processWebhook_caches_pending_order 0 "ORD-1" "EV-1" "webhook"
    ⟨"C1", [⟨"X", 2, 10⟩]⟩ {} "ORD-1" (by with_unfolding_all rfl)
  refine ⟨by with_unfolding_all rfl, h.2.1, h.2.2.1, ?_⟩
  rw [h.2.2.2]
  with_unfolding_all decide

/-- C6: `processWebhook` throws a validation error — leaving the store
and the published/bus state unchanged, since the throw happens before
any write — if and only if the payload has an empty `customerId`, an
empty items list, an item with empty name, non-positive quantity or
negative price, or a computed total amount that is not positive. -/
theorem processWebhook_validation_iff
    (now : Nat) (orderId eventId src : String) (p : WebhookPayload) (s : Store) :
    ((∃ e, (processWebhook now orderId eventId src p s).1 = .error e) ↔
      (p.customerId = "" ∨ p.items = [] ∨
        (∃ it ∈ p.items, it.name = "" ∨ it.quantity ≤ 0 ∨ it.price < 0) ∨
        calculateTotalAmount p.items ≤ 0)) ∧
    (∀ e, (processWebhook now orderId eventId src p s).1 = .error e →
      (processWebhook now orderId eventId src p s).2 = s) := by
  have hiff := validateOrder_error_iff (mkOrder now orderId p)
  simp only [mkOrder] at hiff
  constructor
  · rw [← hiff]
    cases hv : validateOrder (mkOrder now orderId p) with
    | error e =>
      rw [processWebhook_error_eq now orderId eventId src p s e hv]
      exact ⟨fun _ => ⟨e, hv⟩, fun _ => ⟨e, rfl⟩⟩
    | ok u =>
      rw [processWebhook_ok_eq now orderId eventId src p s u hv]
      constructor
      · rintro ⟨e, he⟩
        simp at he
      · rintro ⟨e, he⟩
        have he' : validateOrder (mkOrder now orderId p) = .error e := he
        rw [hv] at he'
        simp at he'
  · intro e he
    cases hv : validateOrder (mkOrder now orderId p) with
    | error e2 =>
      rw [processWebhook_error_eq now orderId eventId src p s e2 hv]
    | ok u =>
      rw [processWebhook_ok_eq now orderId eventId src p s u hv] at he
      simp at he

theorem retryFailedOrder_none_eq (now : Nat) (eventId orderId : String) (s : Store)
    (hg : getOrder now orderId s = none) :
    retryFailedOrder now eventId orderId s = (false, s) := by
  unfold retryFailedOrder
  simp only [hg]

theorem retryFailedOrder_some_eq (now : Nat) (eventId orderId : String) (s : Store)
    (o : Order) (hg : getOrder now orderId s = some o) :
    retryFailedOrder now eventId orderId s =
      (if o.status ≠ .failed then (false, s)
       else if o.retryCount.getD 0 + 1 > 3 then (false, s)
       else (true, publishOrderEvent
          { id := eventId, type := "ORDER_CREATED"
            order := { o with status := .pending, retryCount := some (o.retryCount.getD 0 + 1) }
            timestamp := now, source := "retry-mechanism" }
          (cacheOrder now
            { o with status := .pending, retryCount := some (o.retryCount.getD 0 + 1) } s))) := by
  unfold retryFailedOrder
  simp only [hg]

/-- C2: `retryFailedOrder` returns `false` with the store unchanged (no
cache write, no publish) when the order is absent, not `failed`, or the
incremented retry count would pass 3 — in particular at
`retryCount = 3` — and otherwise returns `true`, re-caches the order as
`pending` with `retryCount + 1`, and publishes it as an `ORDER_CREATED`
event. -/
theorem retryFailedOrder_spec (now : Nat) (eventId orderId : String) (s : Store) :
    (getOrder now orderId s = none →
      retryFailedOrder now eventId orderId s = (false, s)) ∧
    (∀ o, getOrder now orderId s = some o → o.status ≠ .failed →
      retryFailedOrder now eventId orderId s = (false, s)) ∧
    (∀ o, getOrder now orderId s = some o → o.status = .failed →
      3 < o.retryCount.getD 0 + 1 →
      retryFailedOrder now eventId orderId s = (false, s)) ∧
    (∀ o, getOrder now orderId s = some o → o.status = .failed →
      o.retryCount.getD 0 + 1 ≤ 3 → o.id = orderId →
      (retryFailedOrder now eventId orderId s).1 = true ∧
      getOrder now orderId (retryFailedOrder now eventId orderId s).2
        = some { o with status := .pending, retryCount := some (o.retryCount.getD 0 + 1) } ∧
      (retryFailedOrder now eventId orderId s).2.events
        = { id := eventId, type := "ORDER_CREATED"
            order := { o with status := .pending, retryCount := some (o.retryCount.getD 0 + 1) }
            timestamp := now, source := "retry-mechanism" } :: s.events ∧
      (retryFailedOrder now eventId orderId s).2.recent = s.recent) := by
  refine ⟨fun hg => retryFailedOrder_none_eq now eventId orderId s hg, ?_, ?_, ?_⟩
  · intro o hg hst
    rw [retryFailedOrder_some_eq now eventId orderId s o hg, if_pos hst]
  · intro o hg hst hcnt
    rw [retryFailedOrder_some_eq now eventId orderId s o hg, if_neg (by simp [hst]),
      if_pos hcnt]
  · intro o hg hst hcnt hid
    rw [retryFailedOrder_some_eq now eventId orderId s o hg, if_neg (by simp [hst]),
      if_neg (by omega)]
    refine ⟨rfl, ?_, rfl, rfl⟩
    rw [show (true, publishOrderEvent _ (cacheOrder now
        { o with status := .pending, retryCount := some (o.retryCount.getD 0 + 1) } s)).2
        = publishOrderEvent _ (cacheOrder now
        { o with status := .pending, retryCount := some (o.retryCount.getD 0 + 1) } s) from rfl,
      getOrder_publishOrderEvent, getOrder_cacheOrder]
    simp [hid]

/-- Witness for C2 at a concrete store: an order `A`, failed with
`retryCount = 3`, is not retried (the call returns `false` and the
store is untouched); the success clause and the negative clauses are
exercised on the same store. -/
theorem retryFailedOrder_spec_witness :
    retryFailedOrder 0 "EV" "A" failedStore3 = (false, failedStore3) ∧
    (retryFailedOrder 0 "EV" "B" failedStore2).1 = true := by
  constructor
  · exact (retryFailedOrder_spec 0 "EV" "A" failedStore3).2.2.1 failedOrder3
      (by with_unfolding_all rfl) rfl (by with_unfolding_all decide)
  · exact ((retryFailedOrder_spec 0 "EV" "B" failedStore2).2.2.2 failedOrder2
      (by with_unfolding_all rfl) rfl (by with_unfolding_all decide)
      (by with_unfolding_all rfl)).1

theorem take_append_take {α : Type} (a b : List α) (n : Nat) :
    (a ++ b.take n).take n = (a ++ b).take n := by
  rw [List.take_append_eq_append_take, List.take_append_eq_append_take, List.take_take,
    Nat.min_eq_left (Nat.sub_le n a.length)]

theorem foldl_addToRecentOrders (os : List Order) (s : Store)
    (h : s.recent.length ≤ 100) :
    (os.foldl (fun st o => addToRecentOrders o st) s).recent
      = (os.reverse ++ s.recent).take 100 := by
  induction os generalizing s with
  | nil => simpa using (List.take_of_length_le h).symm
  | cons o os ih =>
    rw [List.foldl_cons]
    have h2 : (addToRecentOrders o s).recent.length ≤ 100 := by
      simp [addToRecentOrders]
    rw [ih (addToRecentOrders o s) h2]
    show (os.reverse ++ (o :: s.recent).take 100).take 100
      = ((o :: os).reverse ++ s.recent).take 100
    rw [take_append_take, List.reverse_cons, List.append_assoc, List.singleton_append]

theorem lrange_zero_nonneg {α : Type} (l : List α) (stop : Int) (h : 0 ≤ stop) :
    lrange l 0 stop = l.take (stop + 1).toNat := by
  unfold lrange
  have h0 : ¬ ((0:Int) < 0) := by omega
  have hstop : ¬ (stop < 0) := by omega
  simp only [if_neg h0, if_neg hstop]
  split_ifs with hcond hge
  · rcases hcond with h1 | h2
    · omega
    · have hnil : l = [] := by
        cases l with
        | nil => rfl
        | cons x xs => exfalso; simp at h2; omega
      subst hnil
      simp
  · simp only [Int.toNat_zero, List.drop_zero]
    have h1 : (((l.length : Int)) - 1 - 0 + 1).toNat = l.length := by omega
    rw [h1, List.take_length]
    have h2 : l.length ≤ (stop + 1).toNat := by omega
    exact (List.take_of_length_le h2).symm
  · simp only [Int.toNat_zero, List.drop_zero]
    congr 1
    omega

theorem lrange_zero_neg {α : Type} (l : List α) (stop : Int) (h : stop < 0) :
    lrange l 0 stop = l.take ((l.length : Int) + stop + 1).toNat := by
  unfold lrange
  have h0 : ¬ ((0:Int) < 0) := by omega
  simp only [if_neg h0, if_pos h]
  split_ifs with hcond hge
  · rcases hcond with h1 | h2
    · have ht : ((l.length : Int) + stop + 1).toNat = 0 := by omega
      rw [ht, List.take_zero]
    · have hnil : l = [] := by
        cases l with
        | nil => rfl
        | cons x xs => exfalso; simp at h2; omega
      subst hnil
      simp
  · omega
  · simp only [Int.toNat_zero, List.drop_zero]
    congr 1
    omega

/-- C3: after any sequence of more than 100 `addToRecentOrders` calls
(starting from a store respecting the capacity invariant), the stored
`recent-orders` list holds exactly 100 entries — the last 100 inserted,
most recently inserted first — and `getRecentOrders 100` returns
exactly that list. -/
theorem recentOrders_capacity (os : List Order) (s : Store)
    (hs : s.recent.length ≤ 100) (hN : 100 < os.length) :
    ((os.foldl (fun st o => addToRecentOrders o st) s).recent).length = 100 ∧
    (os.foldl (fun st o => addToRecentOrders o st) s).recent = os.reverse.take 100 ∧
    getRecentOrders 100 (os.foldl (fun st o => addToRecentOrders o st) s)
      = os.reverse.take 100 := by
  have hrec := foldl_addToRecentOrders os s hs
  have hlen : 100 ≤ os.reverse.length := by
    rw [List.length_reverse]
    omega
  have heq : (os.reverse ++ s.recent).take 100 = os.reverse.take 100 :=
    List.take_append_of_le_length hlen
  have hmain : (os.foldl (fun st o => addToRecentOrders o st) s).recent
      = os.reverse.take 100 := hrec.trans heq
  have hlen100 : ((os.foldl (fun st o => addToRecentOrders o st) s).recent).length = 100 := by
    rw [hmain, List.length_take]
    omega
  refine ⟨hlen100, hmain, ?_⟩
  unfold getRecentOrders
  rw [show min (100 : Int) 100 - 1 = 99 from by omega,
    lrange_zero_nonneg _ _ (by omega), hmain]
  rw [show ((99 : Int) + 1).toNat = 100 from by omega, List.take_take, Nat.min_self]

/-- Witness for C3: pushing 101 sample orders into an empty store leaves
exactly 100 stored, and `getRecentOrders 100` returns the last 100
pushed, most recent first. -/
theorem recentOrders_capacity_witness :
    ((manyOrders.foldl (fun st o => addToRecentOrders o st) ({} : Store)).recent).length
      = 100 ∧
    getRecentOrders 100 (manyOrders.foldl (fun st o => addToRecentOrders o st) ({} : Store))
      = manyOrders.reverse.take 100 := by
  have h := recentOrders_capacity manyOrders {} (by with_unfolding_all decide)
    (by with_unfolding_all decide)
  exact ⟨h.1, h.2.2⟩

/-- C10 (corrected form): for a non-positive `limit`, `getRecentOrders`
returns the stored list truncated to its first `length + limit`
entries — the whole list for `limit = 0` (the Redis end index `-1`
addresses the tail), the last `-limit` entries dropped for a negative
`limit`, and the empty list once `-limit` reaches the length. -/
theorem getRecentOrders_nonpos (limit : Int) (s : Store) (h : limit ≤ 0) :
    getRecentOrders limit s
      = s.recent.take ((s.recent.length : Int) + limit).toNat := by
  unfold getRecentOrders
  rw [show min limit 100 = limit from by omega, lrange_zero_neg _ _ (by omega)]
  congr 1
  omega

/-- Witness for C10: on a 2-entry store, `getRecentOrders 0` yields the
entire stored list. -/
theorem getRecentOrders_nonpos_witness :
    getRecentOrders 0 twoOrderStore
      = twoOrderStore.recent.take ((twoOrderStore.recent.length : Int) + 0).toNat ∧
    getRecentOrders 0 twoOrderStore = twoOrderStore.recent := by
  refine ⟨getRecentOrders_nonpos 0 twoOrderStore (by omega), ?_⟩
  rw [getRecentOrders_nonpos 0 twoOrderStore (by omega)]
  with_unfolding_all decide

/-- Counterexample for C10 as stated: with two stored orders,
`getRecentOrders (-1)` does not return the entire stored list (Redis
maps the end index `-2` to the second-to-last element, dropping the
tail entry). -/
theorem getRecentOrders_neg_counterexample :
    getRecentOrders (-1) twoOrderStore ≠ twoOrderStore.recent := by
  with_unfolding_all decide

theorem updateOrderStatus_none_eq (now : Nat) (orderId : String) (status : OrderStatus)
    (pt : Option Nat) (s : Store) (hg : getOrder now orderId s = none) :
    updateOrderStatus now orderId status pt s
      = (.error ("Order " ++ orderId ++ " not found in cache"), s) := by
  unfold updateOrderStatus
  simp only [hg]

theorem updateOrderStatus_some_eq (now : Nat) (orderId : String) (status : OrderStatus)
    (pt : Option Nat) (s : Store) (o : Order) (hg : getOrder now orderId s = some o) :
    updateOrderStatus now orderId status pt s
      = (.ok (), cacheOrder now
          { o with status := status,
                   processingTime := if pt.getD 0 ≠ 0 then pt
                                     else o.processingTime } s) := by
  unfold updateOrderStatus
  simp only [hg]

/-- C7 (corrected form): `updateOrderStatus` fails with a not-found
error, leaving the store unchanged, when no live cached order exists;
otherwise the entry cached under the id keeps every field of the
existing order except `status` (set to the argument) and
`processingTime` — which is overwritten only by a provided *nonzero*
argument (a zero is falsy under the `processingTime && {...}` spread
and is dropped) — with the TTL refreshed to 3600 s, all other cache
keys, the recent list and the published events untouched. -/
theorem updateOrderStatus_amended (now : Nat) (orderId : String) (status : OrderStatus)
    (pt : Option Nat) (s : Store) :
    (getOrder now orderId s = none →
      updateOrderStatus now orderId status pt s
        = (.error ("Order " ++ orderId ++ " not found in cache"), s)) ∧
    (∀ o, getOrder now orderId s = some o → o.id = orderId →
      (updateOrderStatus now orderId status pt s).1 = .ok () ∧
      getAssoc orderId (updateOrderStatus now orderId status pt s).2.cache
        = some ⟨{ o with status := status,
                         processingTime := if pt.getD 0 ≠ 0 then pt
                                           else o.processingTime },
            now + 3600 * 1000⟩ ∧
      (∀ k, k ≠ orderId →
        getAssoc k (updateOrderStatus now orderId status pt s).2.cache
          = getAssoc k s.cache) ∧
      (updateOrderStatus now orderId status pt s).2.recent = s.recent ∧
      (updateOrderStatus now orderId status pt s).2.events = s.events) := by
  refine ⟨fun hg => updateOrderStatus_none_eq now orderId status pt s hg, ?_⟩
  intro o hg hid
  rw [updateOrderStatus_some_eq now orderId status pt s o hg]
  refine ⟨rfl, ?_, ?_, rfl, rfl⟩
  · show getAssoc orderId (setAssoc _ _ s.cache) = _
    rw [getAssoc_setAssoc]
    simp [hid]
  · intro k hk
    show getAssoc k (setAssoc _ _ s.cache) = _
    rw [getAssoc_setAssoc]
    simp only [hid]
    rw [if_neg (fun hh => hk hh.symm)]

/-- Witness for C7: on a store holding order `P` (with recorded
`processingTime = 5`), an update to a missing id `Q` errors and leaves
the store alone, and an update of `P` with a nonzero `processingTime`
merges the new status and time under a fresh TTL. -/
theorem updateOrderStatus_amended_witness :
    updateOrderStatus 0 "Q" .completed none ptStore5
      = (.error ("Order " ++ "Q" ++ " not found in cache"), ptStore5) ∧
    getAssoc "P" (updateOrderStatus 0 "P" .completed (some 7) ptStore5).2.cache
      = some ⟨{ ptOrder5 with status := .completed, processingTime := some 7 }, 3600000⟩ := by
  constructor
  · exact (updateOrderStatus_amended 0 "Q" .completed none ptStore5).1
      (by with_unfolding_all rfl)
  · exact ((updateOrderStatus_amended 0 "P" .completed (some 7) ptStore5).2 ptOrder5
      (by with_unfolding_all rfl) rfl).2.1

/-- Counterexample for C7 as stated: updating order `P` (whose cached
`processingTime` is 5) while *providing* the argument
`processingTime = 0` does not set the field to 0 — the JS truthiness
guard drops a zero, so the old value 5 survives. -/
theorem updateOrderStatus_zero_pt_counterexample :
    (getOrder 0 "P" (updateOrderStatus 0 "P" .completed (some 0) ptStore5).2).map
      (fun o => o.processingTime) ≠ some (some 0) := by
  with_unfolding_all decide

/-- C4: `acquireLock` hands out the token iff no live (unexpired) lock
entry exists for the key; a second `acquireLock` on the same key before
the first expires returns null; `releaseLock` reports success iff the
stored token equals the caller's, deletes the entry exactly then, and a
holder presenting a different (stale) token changes nothing. -/
theorem lock_spec (now : Nat) (tok k : String) (ttl : Nat) (st : LockStore) :
    ((acquireLock now tok k ttl st).1 = some tok ↔ lockGet now k st = none) ∧
    (∀ now2 tok2 ttl2, lockGet now k st = none → now2 < now + ttl * 1000 →
      (acquireLock now2 tok2 k ttl2 (acquireLock now tok k ttl st).2).1 = none) ∧
    ((releaseLock now k tok st).1 = true ↔
      (lockGet now k st).map (fun e => e.token) = some tok) ∧
    (∀ e, lockGet now k st = some e → e.token = tok →
      getAssoc k (releaseLock now k tok st).2 = none) ∧
    (∀ e, lockGet now k st = some e → e.token ≠ tok →
      releaseLock now k tok st = (false, st)) := by
  refine ⟨?_, ?_, ?_, ?_, ?_⟩
  · unfold acquireLock
    cases hlg : lockGet now k st with
    | some e => simp
    | none => simp
  · intro now2 tok2 ttl2 hlg hlt
    unfold acquireLock
    simp only [hlg]
    have h2 : lockGet now2 k (setAssoc k ⟨tok, now + ttl * 1000⟩ st)
        = some ⟨tok, now + ttl * 1000⟩ := by
      unfold lockGet
      rw [getAssoc_setAssoc]
      simp [hlt]
    simp only [h2]
  · unfold releaseLock
    cases hlg : lockGet now k st with
    | some e =>
      by_cases he : e.token = tok
      · simp [he]
      · simp [he]
    | none => simp
  · intro e hlg he
    unfold releaseLock
    simp only [hlg]
    rw [if_pos he]
    exact getAssoc_delAssoc_self k st
  · intro e hlg he
    unfold releaseLock
    simp only [hlg]
    rw [if_neg he]

/-- Witness for C4: on a fresh store, key `K` is acquired with token
`T1`; a second acquisition at a later time inside the TTL fails; a
release with the wrong token `T2` is refused without deleting, and the
release with `T1` removes the entry. -/
theorem lock_spec_witness :
    (acquireLock 0 "T1" "K" 30 []).1 = some "T1" ∧
    (acquireLock 100 "T2" "K" 30 (acquireLock 0 "T1" "K" 30 []).2).1 = none ∧
    releaseLock 0 "K" "T2" lockStoreK = (false, lockStoreK) ∧
    getAssoc "K" (releaseLock 0 "K" "T1" lockStoreK).2 = none := by
  refine ⟨(lock_spec 0 "T1" "K" 30 []).1.mpr rfl, ?_, ?_, ?_⟩
  · exact (lock_spec 0 "T1" "K" 30 []).2.1 100 "T2" 30 rfl (by decide)
  · exact (lock_spec 0 "T2" "K" 30 lockStoreK).2.2.2.2 ⟨"T1", 30000⟩
      (by with_unfolding_all rfl) (by decide)
  · exact (lock_spec 0 "T1" "K" 30 lockStoreK).2.2.2.1 ⟨"T1", 30000⟩
      (by with_unfolding_all rfl) rfl

theorem avg_if_eq (l : List Order) :
    (if 0 < l.length then
        l.foldl (fun sum o => sum + (o.processingTime.getD 0 : ℚ)) 0 / (l.length : ℚ)
      else 0)
      = (l.map (fun o => (o.processingTime.getD 0 : ℚ))).sum / (l.length : ℚ) := by
  by_cases hpos : 0 < l.length
  · rw [if_pos hpos, foldl_ptime, zero_add]
  · rw [if_neg hpos]
    have hnil : l = [] := by
      cases l with
      | nil => rfl
      | cons x xs => exact absurd (Nat.succ_pos xs.length) hpos
    subst hnil
    simp

/-- C5 (corrected form): `calculateMetrics` returns the list length as
`totalOrders`, the per-status counts, the mean recorded processing time
of completed orders *rounded to the nearest integer* (0 when none
recorded one), and the count of orders completed or failed within the
last hour divided by 60 *rounded to 2 decimal places*; the spec's
12-order scenario (10 completed, 2 failed, all within the hour) yields
totalOrders 12, completedOrders 10, failedOrders 2 and
throughputPerMinute 0.2 exactly. -/
theorem calculateMetrics_spec :
    (∀ (now : Nat) (orders : List Order),
      (calculateMetrics now orders).totalOrders = orders.length ∧
      (calculateMetrics now orders).completedOrders
        = orders.countP (fun o => o.status == .completed) ∧
      (calculateMetrics now orders).failedOrders
        = orders.countP (fun o => o.status == .failed) ∧
      (calculateMetrics now orders).averageProcessingTime
        = ((jsRound
            (((orders.filter
                  (fun o => o.status == .completed && o.processingTime.getD 0 != 0)).map
                (fun o => (o.processingTime.getD 0 : ℚ))).sum
              / ((orders.filter
                  (fun o => o.status == .completed && o.processingTime.getD 0 != 0)).length
                : ℚ)) : ℤ) : ℚ) ∧
      (calculateMetrics now orders).throughputPerMinute
        = round2 ((orders.countP (fun o =>
            decide ((o.timestamp : Int) > (now : Int) - 60 * 60 * 1000)
              && (o.status == .completed || o.status == .failed)) : ℚ) / 60)) ∧
    (calculateMetrics 7200000 scenario12).totalOrders = 12 ∧
    (calculateMetrics 7200000 scenario12).completedOrders = 10 ∧
    (calculateMetrics 7200000 scenario12).failedOrders = 2 ∧
    (calculateMetrics 7200000 scenario12).throughputPerMinute = 1 / 5 := by
  refine ⟨?_, by with_unfolding_all decide, by with_unfolding_all decide,
    by with_unfolding_all decide, by with_unfolding_all decide⟩
  intro now orders
  refine ⟨rfl, ?_, ?_, ?_, ?_⟩
  · rw [List.countP_eq_length_filter]
    rfl
  · rw [List.countP_eq_length_filter]
    rfl
  · have h := avg_if_eq
      (orders.filter (fun o => o.status == .completed && o.processingTime.getD 0 != 0))
    exact congrArg (fun q : ℚ => ((jsRound q : ℤ) : ℚ)) h
  · rw [List.countP_eq_length_filter]
    rfl

/-- Counterexample for C5 as stated: one completed order within the
hour makes the code return `round2 (1/60) = 1/50`, not the claimed
`1/60` — `calculateMetrics` rounds the throughput to 2 decimals (and
the average to the nearest integer), which the claim as stated omits. -/
theorem calculateMetrics_rounding_counterexample :
    (calculateMetrics 0 [sampleOrder "A" .completed 0 (some 1000)]).throughputPerMinute
      ≠ 1 / 60 := by
  with_unfolding_all decide

theorem rateCalls_cons (k : String) (limit w t : Nat) (ts : List Nat) (st : RateStore) :
    rateCalls k limit w (t :: ts) st
      = ((checkRateLimit t k limit w true st).1
            :: (rateCalls k limit w ts (checkRateLimit t k limit w true st).2).1,
         (rateCalls k limit w ts (checkRateLimit t k limit w true st).2).2) := rfl

theorem decide_range_cons (limit c n : Nat) :
    decide (c + 1 ≤ limit) :: (List.range n).map (fun i => decide (c + 1 + i + 1 ≤ limit))
      = (List.range (n + 1)).map (fun i => decide (c + i + 1 ≤ limit)) := by
  rw [List.range_succ_eq_map, List.map_cons, List.map_map]
  refine congrArg₂ List.cons rfl ?_
  refine congrArg (fun f => List.map f (List.range n)) ?_
  funext i
  show decide (c + 1 + i + 1 ≤ limit) = decide (c + (i + 1) + 1 ≤ limit)
  rw [Nat.add_right_comm c 1 i]
  rfl

theorem decide_range_base (limit n : Nat) :
    decide (1 ≤ limit) :: (List.range n).map (fun i => decide (1 + i + 1 ≤ limit))
      = (List.range (n + 1)).map (fun i => decide (i + 1 ≤ limit)) := by
  rw [List.range_succ_eq_map, List.map_cons, List.map_map]
  refine congrArg₂ List.cons rfl ?_
  refine congrArg (fun f => List.map f (List.range n)) ?_
  funext i
  show decide (1 + i + 1 ≤ limit) = decide (i + 1 + 1 ≤ limit)
  rw [Nat.add_comm 1 i]

theorem rateCalls_inv (k : String) (limit w : Nat) (ts : List Nat) (st : RateStore)
    (c E : Nat) (hc : 1 ≤ c) (hget : getAssoc k st = some ⟨c, some E⟩)
    (hts : ∀ t ∈ ts, t < E) :
    (rateCalls k limit w ts st).1
      = (List.range ts.length).map (fun i => decide (c + i + 1 ≤ limit)) ∧
    getAssoc k (rateCalls k limit w ts st).2 = some ⟨c + ts.length, some E⟩ := by
  induction ts generalizing st c with
  | nil =>
    refine ⟨by simp [rateCalls], ?_⟩
    simpa [rateCalls] using hget
  | cons t ts ih =>
    have hlive : rateGet t k st = some ⟨c, some E⟩ := by
      unfold rateGet
      simp only [hget]
      rw [if_pos (hts t (by simp))]
    have hstep : checkRateLimit t k limit w true st
        = (decide (c + 1 ≤ limit), setAssoc k ⟨c + 1, some E⟩ st) := by
      unfold checkRateLimit redisIncr
      simp only [hlive]
      rw [if_neg (by omega : ¬(c + 1 = 1))]
      rfl
    have hget' : getAssoc k (setAssoc k (⟨c + 1, some E⟩ : RateEntry) st)
        = some ⟨c + 1, some E⟩ := by
      rw [getAssoc_setAssoc, if_pos rfl]
    obtain ⟨h1, h2⟩ := ih (setAssoc k ⟨c + 1, some E⟩ st) (c + 1) (by omega) hget'
      (fun t' ht' => hts t' (by simp [ht']))
    rw [rateCalls_cons, hstep]
    constructor
    · show decide (c + 1 ≤ limit)
          :: (rateCalls k limit w ts (setAssoc k ⟨c + 1, some E⟩ st)).1
        = (List.range (ts.length + 1)).map (fun i => decide (c + i + 1 ≤ limit))
      rw [h1, decide_range_cons]
    · show getAssoc k (rateCalls k limit w ts (setAssoc k ⟨c + 1, some E⟩ st)).2
        = some ⟨c + (ts.length + 1), some E⟩
      rw [h2, show c + 1 + ts.length = c + (ts.length + 1) from by omega]

/-- C8: starting from a window with no live counter, the n-th
`checkRateLimit` call within the window (all call times before the
expiry set by the first call) returns `true` iff `n ≤ limit`; the first
call attaches an expiry of exactly `windowSeconds` to the counter; and
with the transport down the check returns `true` and changes nothing
(fails open). -/
theorem checkRateLimit_spec (t0 : Nat) (k : String) (limit w : Nat) (st : RateStore)
    (ts : List Nat) (hfresh : rateGet t0 k st = none)
    (hts : ∀ t ∈ ts, t < t0 + w * 1000) :
    (rateCalls k limit w (t0 :: ts) st).1
      = (List.range (ts.length + 1)).map (fun i => decide (i + 1 ≤ limit)) ∧
    getAssoc k (checkRateLimit t0 k limit w true st).2
      = some ⟨1, some (t0 + w * 1000)⟩ ∧
    (∀ now, checkRateLimit now k limit w false st = (true, st)) := by
  have hincr : redisIncr t0 k st = (1, setAssoc k ⟨1, none⟩ st) := by
    unfold redisIncr
    simp only [hfresh]
  have hg1 : rateGet t0 k (setAssoc k (⟨1, none⟩ : RateEntry) st) = some ⟨1, none⟩ := by
    unfold rateGet
    rw [getAssoc_setAssoc, if_pos rfl]
  have hexp : redisExpire t0 k w (setAssoc k (⟨1, none⟩ : RateEntry) st)
      = setAssoc k ⟨1, some (t0 + w * 1000)⟩ (setAssoc k ⟨1, none⟩ st) := by
    unfold redisExpire
    simp only [hg1]
  have hstep0 : checkRateLimit t0 k limit w true st
      = (decide (1 ≤ limit),
         setAssoc k ⟨1, some (t0 + w * 1000)⟩ (setAssoc k ⟨1, none⟩ st)) := by
    unfold checkRateLimit
    simp only [hincr, hexp, Bool.not_true]
    rfl
  have hget1 : getAssoc k
      (setAssoc k (⟨1, some (t0 + w * 1000)⟩ : RateEntry) (setAssoc k ⟨1, none⟩ st))
      = some ⟨1, some (t0 + w * 1000)⟩ := by
    rw [getAssoc_setAssoc, if_pos rfl]
  obtain ⟨h1, h2⟩ := rateCalls_inv k limit w ts
    (setAssoc k ⟨1, some (t0 + w * 1000)⟩ (setAssoc k ⟨1, none⟩ st))
    1 (t0 + w * 1000) (by omega) hget1 hts
  refine ⟨?_, by rw [hstep0]; exact hget1, fun now => by unfold checkRateLimit; rfl⟩
  rw [rateCalls_cons, hstep0]
  show decide (1 ≤ limit)
      :: (rateCalls k limit w ts
          (setAssoc k ⟨1, some (t0 + w * 1000)⟩ (setAssoc k ⟨1, none⟩ st))).1
    = (List.range (ts.length + 1)).map (fun i => decide (i + 1 ≤ limit))
  rw [h1, decide_range_base]

/-- Witness for C8: three calls at times 0, 1, 2 against limit 2 and a
60 s window yield allow, allow, deny; the first call sets the expiry to
exactly 60000 ms after it; a call with the transport down is allowed. -/
theorem checkRateLimit_spec_witness :
    (rateCalls "R" 2 60 [0, 1, 2] []).1 = [true, true, false] ∧
    getAssoc "R" (checkRateLimit 0 "R" 2 60 true []).2 = some ⟨1, some 60000⟩ ∧
    checkRateLimit 0 "R" 2 60 false [] = (true, []) := by
  have h := checkRateLimit_spec 0 "R" 2 60 [] [1, 2] rfl (by decide)
  exact ⟨h.1.trans (by decide), h.2.1.trans (by decide), h.2.2 0⟩

/-- C9: for every consumed bus message, at most one handler — the one
registered for the message's effective event type — runs; a parsed
message whose event type has no registered handler is logged and
dropped with no error and no dead-letter publish; and a handler throw
is caught, not rethrown, and publishes to the dead-letter topic a
record carrying the original message, the error, the `failedAt`
timestamp and the retry count (0, the `|| 0` default, since neither an
`OrderEvent` nor a raw value has a top-level `retryCount`). -/
theorem handleMessage_spec (parse : String → Option OrderEvent)
    (handlers : List (String × (OrderEvent → Except String Unit)))
    (now : Nat) (m : KafkaMsg) :
    (handleMessage parse handlers now m).invoked.length ≤ 1 ∧
    (∀ rawValue ev, m.value = some rawValue → parse rawValue = some ev →
      getAssoc (effectiveEventType m ev) handlers = none →
      handleMessage parse handlers now m
        = { invoked := [], deadLetter := none, dropped := true }) ∧
    (∀ rawValue ev handler, m.value = some rawValue → parse rawValue = some ev →
      getAssoc (effectiveEventType m ev) handlers = some handler →
      handler ev = .ok () →
      handleMessage parse handlers now m
        = { invoked := [effectiveEventType m ev], deadLetter := none, dropped := false }) ∧
    (∀ rawValue ev handler e, m.value = some rawValue → parse rawValue = some ev →
      getAssoc (effectiveEventType m ev) handlers = some handler →
      handler ev = .error e →
      handleMessage parse handlers now m
        = { invoked := [effectiveEventType m ev]
            deadLetter := some { originalMessage := .parsed ev, errorMessage := e
                                 failedAt := now, retryCount := 0 }
            dropped := false }) := by
  refine ⟨?_, ?_, ?_, ?_⟩
  · unfold handleMessage
    cases hmv : m.value with
    | none => simp [hmv]
    | some rawValue =>
      cases hp : parse rawValue with
      | none => simp [hmv, hp]
      | some ev =>
        cases hh : getAssoc (effectiveEventType m ev) handlers with
        | none => simp [hmv, hp, hh]
        | some handler => cases he : handler ev <;> simp [hmv, hp, hh, he]
  · intro rawValue ev hmv hp hh
    unfold handleMessage
    simp only [hmv, hp, hh]
  · intro rawValue ev handler hmv hp hh he
    unfold handleMessage
    simp only [hmv, hp, hh, he]
  · intro rawValue ev handler e hmv hp hh he
    unfold handleMessage
    simp only [hmv, hp, hh, he]
    rfl

/-- Witness for C9: a handler registered for `ORDER_CREATED` that
throws `boom` on the sample event produces no rethrow but a dead-letter
record carrying the parsed message, the error, the timestamp and retry
count 0. -/
theorem handleMessage_spec_witness :
    handleMessage (fun _ => some sampleEvent)
        [("ORDER_CREATED", fun _ => .error "boom")] 5 ⟨some "x", none⟩
      = { invoked := ["ORDER_CREATED"]
          deadLetter := some { originalMessage := .parsed sampleEvent, errorMessage := "boom"
                               failedAt := 5, retryCount := 0 }
          dropped := false } := by
  exact (handleMessage_spec (fun _ => some sampleEvent)
      [("ORDER_CREATED", fun _ => .error "boom")] 5 ⟨some "x", none⟩).2.2.2
    "x" sampleEvent (fun _ => .error "boom") "boom" rfl rfl
    (by with_unfolding_all rfl) rfl

end OrderProcessing
